import Mathlib

/-!
Verification of the chat-relay server (src/server.js): a shallow embedding of
its data model (Message, Room), the socket event handlers (clear-room-chat,
join-room, send-message, typing, disconnect) and the two REST routes
(GET /api/rooms/:roomId, GET /api/rooms/:roomId/messages), together with
theorems settling the spec claims about them.

Modelling conventions:
- The MongoDB store is a pair of lists (rooms, messages) plus a counter that
  stands for fresh ObjectId generation when a Message document is created.
- Instants (Date) are naturals; the server-side clock value is passed to a
  handler as an explicit argument where the code calls Date.now / new Date().
- Each handler takes a Boolean saying whether its store operation throws
  (the try/catch boundary in the source); true models the catch path.
- findOne returns the first matching document; document save updates the
  found document in place (first match by roomId, which the schema declares
  unique); deleteOne removes the first matching document; deleteMany removes
  every matching document.
- The Mongoose query-builder chain is modelled by QueryOpts: repeated sort
  calls on the same key merge, the later call overriding the earlier one,
  and execution applies the merged sort before the limit (mquery semantics).
-/

namespace ChatServer

/-- A Message document (messageSchema): roomId, sender, text all required
strings, timestamp an instant defaulting to write time; id is the document
_id. -/
structure Message where
  id : Nat
  roomId : String
  sender : String
  text : String
  timestamp : Nat
deriving DecidableEq, Repr

/-- A Room document (roomSchema): unique roomId, ordered participant list,
createdAt instant set once. -/
structure Room where
  roomId : String
  participants : List String
  createdAt : Nat
deriving DecidableEq, Repr

/-- The document store: the Room and Message collections, plus a counter
standing for fresh Message _id generation. -/
structure Store where
  rooms : List Room
  messages : List Message
  nextId : Nat
deriving DecidableEq, Repr

/-- Connection-local session fields, set on a successful join-room
(socket.roomId, socket.username); absent before any join. -/
structure SocketState where
  roomId : Option String := none
  username : Option String := none
deriving DecidableEq, Repr

/-- Destination of an outbound emit: the calling socket only (socket.emit),
every member of a room except the caller (socket.to(roomId).emit), or every
member of a room including the caller (io.to(roomId).emit). -/
inductive Target where
  | caller : Target
  | roomExceptCaller : String → Target
  | room : String → Target
deriving DecidableEq, Repr

/-- Outbound events emitted by the server. -/
inductive OutEvent where
  | roomJoined : String → List String → List Message → OutEvent
  | userJoined : String → List String → OutEvent
  | newMessage : Nat → String → String → String → Nat → OutEvent
  | userTyping : String → Bool → OutEvent
  | roomChatCleared : OutEvent
  | userLeft : String → List String → OutEvent
  | errorEvent : String → OutEvent
deriving DecidableEq, Repr

/-- An emission: an event together with where it is sent. -/
abbrev Emit := Target × OutEvent

/-- Room.findOne with a roomId filter: the first matching document. -/
def findRoom (store : Store) (rid : String) : Option Room :=
  store.rooms.find? (fun r => r.roomId = rid)

/-- Saving a found Room document: the first document with its roomId is
replaced by the updated one. -/
def saveRoomList : List Room → Room → List Room
  | [], _ => []
  | r :: rs, r' => if r.roomId = r'.roomId then r' :: rs else r :: saveRoomList rs r'

/-- Room.deleteOne with a roomId filter: removes the first matching
document. -/
def deleteOneRoom : List Room → String → List Room
  | [], _ => []
  | r :: rs, rid => if r.roomId = rid then rs else r :: deleteOneRoom rs rid

/-- Timestamp-ascending order on messages. -/
def tsle (a b : Message) : Prop := a.timestamp ≤ b.timestamp

/-- Timestamp-descending order on messages. -/
def tsge (a b : Message) : Prop := b.timestamp ≤ a.timestamp

instance : DecidableRel tsle := fun a b => Nat.decLe a.timestamp b.timestamp

instance : DecidableRel tsge := fun a b => Nat.decLe b.timestamp a.timestamp

instance : IsTotal Message tsle := ⟨fun a b => Nat.le_total a.timestamp b.timestamp⟩

instance : IsTrans Message tsle := ⟨fun _ _ _ h h' => Nat.le_trans h h'⟩

instance : IsTotal Message tsge := ⟨fun a b => Nat.le_total b.timestamp a.timestamp⟩

instance : IsTrans Message tsge := ⟨fun _ _ _ h h' => Nat.le_trans h' h⟩

/-- Options accumulated by a Mongoose query-builder chain on the Message
collection, restricted to the only key the server sorts on (timestamp).
Repeated sort calls merge their keys, a later sort on the same key
overriding the earlier one; limit sets the result cap. -/
structure QueryOpts where
  sortTimestamp : Option Int := none
  limitN : Option Nat := none

/-- A sort call on the chain: records the timestamp direction, overriding
any earlier direction for the same key. -/
def QueryOpts.sort (q : QueryOpts) (dir : Int) : QueryOpts :=
  { q with sortTimestamp := some dir }

/-- A limit call on the chain. -/
def QueryOpts.limit (q : QueryOpts) (n : Nat) : QueryOpts :=
  { q with limitN := some n }

/-- Executing Message.find({roomId}) with the accumulated options: filter by
roomId, apply the merged sort (once), then apply the limit. -/
def execFind (msgs : List Message) (rid : String) (q : QueryOpts) : List Message :=
  let filtered := msgs.filter (fun m => m.roomId = rid)
  let sorted :=
    match q.sortTimestamp with
    | none => filtered
    | some d => if d < 0 then List.insertionSort tsge filtered else List.insertionSort tsle filtered
  match q.limitN with
  | some n => sorted.take n
  | none => sorted

/-- The message query issued by the join-room handler:
Message.find({roomId}).sort({timestamp: -1}).limit(50).sort({timestamp: 1}). -/
def recentMessages (msgs : List Message) (rid : String) : List Message :=
  execFind msgs rid ((((({} : QueryOpts)).sort (-1)).limit 50).sort 1)

/-- Result of a socket event handler: the store and connection state after
it runs, and the emissions it produced, in order. -/
structure HandlerResult where
  store : Store
  socket : SocketState
  emits : List Emit
deriving DecidableEq, Repr

/-- The clear-room-chat handler: Message.deleteMany({roomId}), then
room-chat-cleared to the whole room; on a store error, an error event to the
caller only. -/
def clearRoomChat (store : Store) (socket : SocketState) (rid : String) (fail : Bool) :
    HandlerResult :=
  if fail then
    ⟨store, socket, [(Target.caller, OutEvent.errorEvent ("Failed to clear chat"))]⟩
  else
    ⟨{ store with messages := store.messages.filter (fun m => ¬ m.roomId = rid) }, socket,
      [(Target.room rid, OutEvent.roomChatCleared)]⟩

/-- The join-room handler: find or create the Room (appending the username
if absent from the participant list), bind the connection-local fields,
fetch recentMessages, reply room-joined to the caller and broadcast
user-joined to the rest of the room; on a store error, an error event to the
caller only. -/
def joinRoom (store : Store) (socket : SocketState) (rid username : String) (now : Nat)
    (fail : Bool) : HandlerResult :=
  if fail then
    ⟨store, socket, [(Target.caller, OutEvent.errorEvent ("Failed to join room"))]⟩
  else
    let found :=
      match findRoom store rid with
      | none =>
          let room : Room := ⟨rid, [username], now⟩
          ({ store with rooms := store.rooms ++ [room] }, room)
      | some r =>
          if username ∈ r.participants then (store, r)
          else
            let r' := { r with participants := r.participants ++ [username] }
            ({ store with rooms := saveRoomList store.rooms r' }, r')
    let store' := found.1
    let room := found.2
    let socket' : SocketState := { roomId := some rid, username := some username }
    let msgs := recentMessages store'.messages rid
    ⟨store', socket',
      [(Target.caller, OutEvent.roomJoined rid room.participants msgs),
       (Target.roomExceptCaller rid, OutEvent.userJoined username room.participants)]⟩

/-- The send-message handler: persist a new Message with a server-assigned
timestamp and a fresh id, then broadcast new-message to the whole room; on a
store error, an error event to the sender only and nothing persisted. -/
def sendMessage (store : Store) (socket : SocketState) (rid sender text : String) (now : Nat)
    (fail : Bool) : HandlerResult :=
  if fail then
    ⟨store, socket, [(Target.caller, OutEvent.errorEvent ("Failed to send message"))]⟩
  else
    let message : Message := ⟨store.nextId, rid, sender, text, now⟩
    ⟨{ store with messages := store.messages ++ [message], nextId := store.nextId + 1 }, socket,
      [(Target.room rid,
        OutEvent.newMessage message.id rid sender text message.timestamp)]⟩

/-- The typing handler: no persistence, user-typing to the room except the
sender. -/
def typing (store : Store) (socket : SocketState) (rid username : String) (isTyping : Bool) :
    HandlerResult :=
  ⟨store, socket, [(Target.roomExceptCaller rid, OutEvent.userTyping username isTyping)]⟩

/-- The disconnect handler: if the connection had bound a room and username,
remove the username from the Room participant list; delete the Room if the
list became empty, otherwise save it and broadcast user-left to the
remaining members. Store errors are logged only (no emission). -/
def disconnect (store : Store) (socket : SocketState) (fail : Bool) : HandlerResult :=
  match socket.roomId, socket.username with
  | some rid, some username =>
      if fail then ⟨store, socket, []⟩
      else
        match findRoom store rid with
        | none => ⟨store, socket, []⟩
        | some room =>
            let ps := room.participants.filter (fun p => ¬ p = username)
            if ps.length = 0 then
              ⟨{ store with rooms := deleteOneRoom store.rooms rid }, socket, []⟩
            else
              let room' := { room with participants := ps }
              ⟨{ store with rooms := saveRoomList store.rooms room' }, socket,
                [(Target.roomExceptCaller rid, OutEvent.userLeft username ps)]⟩
  | _, _ => ⟨store, socket, []⟩

/-- An HTTP response from the REST routes: status code, optional Room body,
optional message-list body, optional error body. -/
structure HttpResponse where
  status : Nat
  room : Option Room := none
  messages : Option (List Message) := none
  error : Option String := none
deriving DecidableEq, Repr

/-- GET /api/rooms/:roomId — 200 with the Room, 404 Room not found, or 500
on a store error. -/
def getRoomRoute (store : Store) (rid : String) (fail : Bool) : HttpResponse :=
  if fail then { status := 500, error := some ("Server error") }
  else
    match findRoom store rid with
    | none => { status := 404, error := some ("Room not found") }
    | some r => { status := 200, room := some r }

/-- GET /api/rooms/:roomId/messages —
Message.find({roomId}).sort({timestamp: 1}), 200 with the list, or 500 on a
store error. -/
def getRoomMessagesRoute (store : Store) (rid : String) (fail : Bool) : HttpResponse :=
  if fail then { status := 500, error := some ("Server error") }
  else { status := 200, messages := some (execFind store.messages rid (({} : QueryOpts).sort 1)) }

/-- A sequence of join-room calls by distinct fresh connections on one room,
folding the store through each successful call. -/
def joinSequence (store : Store) (rid : String) (now : Nat) (us : List String) : Store :=
  us.foldl (fun s u => (joinRoom s {} rid u now false).store) store

/-! ### Helper lemmas about the store operations -/

theorem find?_append_none {α : Type _} (p : α → Bool) (l₁ l₂ : List α)
    (h : l₁.find? p = none) : (l₁ ++ l₂).find? p = l₂.find? p := by
  induction l₁ with
  | nil => rfl
  | cons a l ih =>
      rw [List.find?_eq_none] at h
      have hpa : ¬ p a = true := h a (List.mem_cons_self a l)
      rw [List.cons_append, List.find?_cons_of_neg _ hpa]
      exact ih (List.find?_eq_none.mpr fun x hx => h x (List.mem_cons_of_mem a hx))

theorem findRoom_saveRoomList (rid : String) (r' : Room) (hrid : r'.roomId = rid) :
    ∀ (rooms : List Room) (room : Room),
      rooms.find? (fun r => r.roomId = rid) = some room →
      (saveRoomList rooms r').find? (fun r => r.roomId = rid) = some r'
  | [], _, h => by simp at h
  | r :: rs, room, h => by
      by_cases hc : r.roomId = rid
      · have hcc : r.roomId = r'.roomId := by rw [hc, hrid]
        simp only [saveRoomList, if_pos hcc]
        exact List.find?_cons_of_pos _ (by simpa using hrid)
      · have hcc : ¬ r.roomId = r'.roomId := by rw [hrid]; exact hc
        rw [List.find?_cons_of_neg _ (by simpa using hc)] at h
        simp only [saveRoomList, if_neg hcc]
        rw [List.find?_cons_of_neg _ (by simpa using hc)]
        exact findRoom_saveRoomList rid r' hrid rs room h

theorem find?_roomId_none_of_not_mem (rid : String) (rooms : List Room)
    (h : rid ∉ rooms.map Room.roomId) :
    rooms.find? (fun r => r.roomId = rid) = none := by
  rw [List.find?_eq_none]
  intro r hr hc
  exact h (List.mem_map.mpr ⟨r, hr, by simpa using hc.symm⟩)

theorem findRoom_deleteOneRoom (rid : String) :
    ∀ rooms : List Room, (rooms.map Room.roomId).Nodup →
      (deleteOneRoom rooms rid).find? (fun r => r.roomId = rid) = none
  | [], _ => rfl
  | r :: rs, h => by
      rw [List.map_cons, List.nodup_cons] at h
      obtain ⟨hni, hnd⟩ := h
      by_cases hc : r.roomId = rid
      · have hmem : rid ∉ rs.map Room.roomId := by rw [← hc]; exact hni
        simp only [deleteOneRoom, if_pos hc]
        exact find?_roomId_none_of_not_mem rid rs hmem
      · simp only [deleteOneRoom, if_neg hc]
        rw [List.find?_cons_of_neg _ (by simpa using hc)]
        exact findRoom_deleteOneRoom rid rs hnd

theorem joinRoom_create (store : Store) (socket : SocketState) (rid u : String) (now : Nat)
    (hfresh : findRoom store rid = none) :
    findRoom (joinRoom store socket rid u now false).store rid = some ⟨rid, [u], now⟩ := by
  unfold joinRoom
  simp only [Bool.false_eq_true, if_false, hfresh]
  show (store.rooms ++ [(⟨rid, [u], now⟩ : Room)]).find? (fun r => r.roomId = rid) = _
  rw [find?_append_none _ _ _ hfresh]
  simp

theorem findRoom_joinRoom_append (store : Store) (socket : SocketState) (rid u : String)
    (now : Nat) (room : Room) (hfind : findRoom store rid = some room)
    (hmem : u ∉ room.participants) :
    findRoom (joinRoom store socket rid u now false).store rid =
      some { room with participants := room.participants ++ [u] } := by
  have hrid : room.roomId = rid := by
    have := List.find?_some hfind
    simpa using this
  unfold joinRoom
  simp only [Bool.false_eq_true, if_false, hfind, hmem]
  show (saveRoomList store.rooms _).find? (fun r => r.roomId = rid) = _
  exact findRoom_saveRoomList rid { room with participants := room.participants ++ [u] }
    hrid store.rooms room hfind

theorem joinSequence_extends (rid : String) (now : Nat) :
    ∀ (us : List String) (store : Store) (room : Room),
      findRoom store rid = some room →
      (∀ w ∈ us, w ∉ room.participants) → us.Nodup →
      findRoom (joinSequence store rid now us) rid =
        some { room with participants := room.participants ++ us }
  | [], store, room, hfind, _, _ => by simpa [joinSequence] using hfind
  | u :: us, store, room, hfind, hdisj, hnodup => by
      have hmem : u ∉ room.participants := hdisj u (List.mem_cons_self u us)
      have h1 := findRoom_joinRoom_append store {} rid u now room hfind hmem
      have step : joinSequence store rid now (u :: us) =
          joinSequence (joinRoom store {} rid u now false).store rid now us := rfl
      rw [step]
      have hdisj' : ∀ w ∈ us, w ∉ room.participants ++ [u] := by
        intro w hw
        simp only [List.mem_append, List.mem_singleton]
        rintro (hin | hequ)
        · exact hdisj w (List.mem_cons_of_mem u hw) hin
        · exact (List.nodup_cons.mp hnodup).1 (hequ ▸ hw)
      have h2 := joinSequence_extends rid now us _ _ h1 hdisj' (List.nodup_cons.mp hnodup).2
      rw [h2]
      simp

/-! ### Claim theorems -/

/-- C2: for a sequence of successful join-room calls with pairwise-distinct
usernames on a roomId with no existing Room record, the first call creates
the Room with participant list exactly the first username, and after the
whole sequence the Room participant list is exactly the username sequence:
each username once, ordered by first join. -/
theorem join_fresh_sequence (store : Store) (rid : String) (now : Nat) (u : String)
    (us : List String) (hfresh : findRoom store rid = none) (hnodup : (u :: us).Nodup) :
    findRoom (joinRoom store {} rid u now false).store rid = some ⟨rid, [u], now⟩ ∧
    findRoom (joinSequence store rid now (u :: us)) rid = some ⟨rid, u :: us, now⟩ := by
  have h1 := joinRoom_create store {} rid u now hfresh
  refine ⟨h1, ?_⟩
  have step : joinSequence store rid now (u :: us) =
      joinSequence (joinRoom store {} rid u now false).store rid now us := rfl
  rw [step]
  have hdisj : ∀ w ∈ us, w ∉ (⟨rid, [u], now⟩ : Room).participants := by
    intro w hw
    simp only [List.mem_singleton]
    intro hequ
    exact (List.nodup_cons.mp hnodup).1 (hequ ▸ hw)
  have h2 := joinSequence_extends rid now us _ _ h1 hdisj (List.nodup_cons.mp hnodup).2
  rw [h2]
  rfl

/-- C2 witness: starting from an empty store, alice then bob join room r1;
the first call creates the room with participants [alice], and afterwards
the participants are [alice, bob]. -/
theorem join_fresh_sequence_witness :
    findRoom (joinRoom ⟨[], [], 0⟩ {} ("r1") ("alice") 7 false).store ("r1") =
        some ⟨("r1"), [("alice")], 7⟩ ∧
    findRoom (joinSequence ⟨[], [], 0⟩ ("r1") 7 [("alice"), ("bob")]) ("r1") =
        some ⟨("r1"), [("alice"), ("bob")], 7⟩ :=
  join_fresh_sequence ⟨[], [], 0⟩ ("r1") 7 ("alice") [("bob")] (by decide) (by decide)

/-- C5: clear-room-chat deletes exactly the Messages whose roomId matches:
afterwards no Message of that room remains, every Message of another room is
kept, and room-chat-cleared is broadcast to the whole room including the
caller. -/
theorem clearRoomChat_exact (store : Store) (socket : SocketState) (rid : String) :
    (clearRoomChat store socket rid false).store.messages =
        store.messages.filter (fun m => ¬ m.roomId = rid) ∧
    (∀ m ∈ (clearRoomChat store socket rid false).store.messages, ¬ m.roomId = rid) ∧
    (∀ m ∈ store.messages, ¬ m.roomId = rid →
        m ∈ (clearRoomChat store socket rid false).store.messages) ∧
    (clearRoomChat store socket rid false).emits =
        [(Target.room rid, OutEvent.roomChatCleared)] := by
  refine ⟨rfl, ?_, ?_, rfl⟩
  · intro m hm
    have hm' : m ∈ store.messages.filter (fun m => ¬ m.roomId = rid) := hm
    simpa using (List.mem_filter.mp hm').2
  · intro m hm hne
    simp only [clearRoomChat, Bool.false_eq_true, if_false]
    exact List.mem_filter.mpr ⟨hm, by simpa using hne⟩

/-- C6: on store success, send-message persists exactly one new Message with
the server-assigned timestamp and broadcasts new-message with its id,
roomId, sender, text and timestamp to the whole room including the sender;
on store failure, only an error event to the sender is emitted and the store
is unchanged. -/
theorem sendMessage_success_failure (store : Store) (socket : SocketState)
    (rid sender text : String) (now : Nat) :
    (sendMessage store socket rid sender text now false).store.messages =
        store.messages ++ [⟨store.nextId, rid, sender, text, now⟩] ∧
    (sendMessage store socket rid sender text now false).emits =
        [(Target.room rid, OutEvent.newMessage store.nextId rid sender text now)] ∧
    (sendMessage store socket rid sender text now true).store = store ∧
    (sendMessage store socket rid sender text now true).emits =
        [(Target.caller, OutEvent.errorEvent ("Failed to send message"))] :=
  ⟨rfl, rfl, rfl, rfl⟩

/-- C7: joining a room with a username already present in its participant
list leaves the store, and in particular the participant list, unchanged:
no duplicate entry is appended. -/
theorem joinRoom_idempotent_member (store : Store) (socket : SocketState) (rid u : String)
    (now : Nat) (room : Room) (hfind : findRoom store rid = some room)
    (hmem : u ∈ room.participants) :
    (joinRoom store socket rid u now false).store = store := by
  unfold joinRoom
  simp [hfind, hmem]

/-- C7 witness: alice re-joining room r1 whose participants are [alice]
leaves the store unchanged. -/
theorem joinRoom_idempotent_member_witness :
    (joinRoom ⟨[⟨("r1"), [("alice")], 0⟩], [], 0⟩ {} ("r1") ("alice") 9 false).store =
      ⟨[⟨("r1"), [("alice")], 0⟩], [], 0⟩ :=
  joinRoom_idempotent_member ⟨[⟨("r1"), [("alice")], 0⟩], [], 0⟩ {} ("r1") ("alice") 9
    ⟨("r1"), [("alice")], 0⟩ (by decide) (by decide)

/-- C8: the messages route answers 200 with a list that is a permutation of
all stored Messages of the room (no cap) and is sorted by timestamp
ascending. -/
theorem getRoomMessagesRoute_all_sorted (store : Store) (rid : String) :
    (getRoomMessagesRoute store rid false).status = 200 ∧
    ∃ msgs, (getRoomMessagesRoute store rid false).messages = some msgs ∧
      msgs.Perm (store.messages.filter (fun m => m.roomId = rid)) ∧
      List.Sorted tsle msgs := by
  refine ⟨rfl, List.insertionSort tsle (store.messages.filter (fun m => m.roomId = rid)),
    rfl, ?_, ?_⟩
  · exact List.perm_insertionSort tsle _
  · exact List.sorted_insertionSort tsle _

/-- C9: disconnect of a connection whose room or username field is unset,
and disconnect of a bound connection whose Room record no longer exists,
both leave the store unchanged and emit nothing. -/
theorem disconnect_frame (store : Store) (socket : SocketState) (fail : Bool)
    (h : socket.roomId = none ∨ socket.username = none ∨
      (fail = false ∧ ∃ rid, socket.roomId = some rid ∧ findRoom store rid = none)) :
    (disconnect store socket fail).store = store ∧
    (disconnect store socket fail).emits = [] := by
  obtain ⟨rOpt, uOpt⟩ := socket
  cases rOpt with
  | none => cases uOpt <;> exact ⟨rfl, rfl⟩
  | some rid =>
      cases uOpt with
      | none => exact ⟨rfl, rfl⟩
      | some u =>
          rcases h with h | h | ⟨hfail, rid', hrid, hfind⟩
          · exact absurd h (by simp)
          · exact absurd h (by simp)
          · cases hfail
            have hrid' : rid' = rid := by
              simpa using hrid.symm
            subst hrid'
            simp [disconnect, hfind]

/-- C9 witness: disconnect of a connection that never joined leaves an
empty store unchanged and emits nothing. -/
theorem disconnect_frame_witness :
    (disconnect ⟨[], [], 0⟩ {} false).store = ⟨[], [], 0⟩ ∧
    (disconnect ⟨[], [], 0⟩ {} false).emits = [] :=
  disconnect_frame ⟨[], [], 0⟩ {} false (Or.inl rfl)

/-- C3: when a Room has exactly one participant and the connection bound to
that username disconnects, the Room record is deleted and a subsequent
get-room on its id answers 404 with the Room-not-found error body. -/
theorem disconnect_last_deletes_room (store : Store) (rid u : String) (room : Room)
    (hnd : (store.rooms.map Room.roomId).Nodup)
    (hfind : findRoom store rid = some room) (hsolo : room.participants = [u]) :
    findRoom (disconnect store ⟨some rid, some u⟩ false).store rid = none ∧
    getRoomRoute (disconnect store ⟨some rid, some u⟩ false).store rid false =
      { status := 404, error := some ("Room not found") } := by
  have hstore : (disconnect store ⟨some rid, some u⟩ false).store =
      { store with rooms := deleteOneRoom store.rooms rid } := by
    simp [disconnect, hfind, hsolo]
  have hnone : findRoom { store with rooms := deleteOneRoom store.rooms rid } rid = none :=
    findRoom_deleteOneRoom rid store.rooms hnd
  rw [hstore]
  exact ⟨hnone, by simp [getRoomRoute, hnone]⟩

/-- C3 witness: alice is the sole participant of room r1; after her
disconnect the room is gone and get-room answers 404 Room not found. -/
theorem disconnect_last_deletes_room_witness :
    findRoom (disconnect ⟨[⟨("r1"), [("alice")], 0⟩], [], 0⟩
        ⟨some ("r1"), some ("alice")⟩ false).store ("r1") = none ∧
    getRoomRoute (disconnect ⟨[⟨("r1"), [("alice")], 0⟩], [], 0⟩
        ⟨some ("r1"), some ("alice")⟩ false).store ("r1") false =
      { status := 404, error := some ("Room not found") } :=
  disconnect_last_deletes_room ⟨[⟨("r1"), [("alice")], 0⟩], [], 0⟩ ("r1") ("alice")
    ⟨("r1"), [("alice")], 0⟩ (by decide) (by decide) (by decide)

/-- C4: when a Room has at least two (distinct) participants and a
connection bound to one of them disconnects, the Room stays present with
exactly that username removed and every other participant kept, and
user-left with the username and the updated participant list is broadcast
to the room members other than the disconnecting connection. -/
theorem disconnect_nonlast_removes_only (store : Store) (rid u : String) (room : Room)
    (ps : List String) (hfind : findRoom store rid = some room)
    (hnd : room.participants.Nodup) (_hu : u ∈ room.participants)
    (hlen : 2 ≤ room.participants.length)
    (hps : ps = room.participants.filter (fun p => ¬ p = u)) :
    findRoom (disconnect store ⟨some rid, some u⟩ false).store rid =
        some { room with participants := ps } ∧
    u ∉ ps ∧
    (∀ v ∈ room.participants, ¬ v = u → v ∈ ps) ∧
    (∀ v ∈ ps, v ∈ room.participants ∧ ¬ v = u) ∧
    (disconnect store ⟨some rid, some u⟩ false).emits =
      [(Target.roomExceptCaller rid, OutEvent.userLeft u ps)] := by
  have hex : ∀ l : List String, l.Nodup → 2 ≤ l.length → ∃ v, v ∈ l ∧ ¬ v = u := by
    intro l hl hll
    rcases l with _ | ⟨a, _ | ⟨b, l⟩⟩
    · exact absurd hll (by simp)
    · exact absurd hll (by simp)
    · have hne : ¬ a = b := fun hab =>
        (List.nodup_cons.mp hl).1 (hab ▸ List.mem_cons_self b l)
      by_cases hau : a = u
      · exact ⟨b, List.mem_cons_of_mem a (List.mem_cons_self b l),
          fun hbu => hne (hau.trans hbu.symm)⟩
      · exact ⟨a, List.mem_cons_self a (b :: l), hau⟩
  obtain ⟨v, hv, hvne⟩ := hex room.participants hnd hlen
  have hvps : v ∈ ps := by
    rw [hps]
    exact List.mem_filter.mpr ⟨hv, by simpa using hvne⟩
  have hpsne : ¬ ps.length = 0 := by
    intro h0
    rw [List.length_eq_zero] at h0
    rw [h0] at hvps
    exact absurd hvps (List.not_mem_nil v)
  have hrid : room.roomId = rid := by
    have := List.find?_some hfind
    simpa using this
  have hres : disconnect store ⟨some rid, some u⟩ false =
      ⟨{ store with rooms := saveRoomList store.rooms { room with participants := ps } },
        ⟨some rid, some u⟩,
        [(Target.roomExceptCaller rid, OutEvent.userLeft u ps)]⟩ := by
    simp only [disconnect, hfind, ← hps]
    rw [if_neg hpsne]
    rfl
  refine ⟨?_, ?_, ?_, ?_, ?_⟩
  · rw [hres]
    exact findRoom_saveRoomList rid { room with participants := ps } hrid
      store.rooms room hfind
  · rw [hps]
    intro hu'
    simpa using (List.mem_filter.mp hu').2
  · intro w hw hwne
    rw [hps]
    exact List.mem_filter.mpr ⟨hw, by simpa using hwne⟩
  · intro w hw
    rw [hps] at hw
    exact ⟨(List.mem_filter.mp hw).1, by simpa using (List.mem_filter.mp hw).2⟩
  · rw [hres]

/-- C4 witness: alice disconnects from room r1 whose participants are
[alice, bob]; the room keeps exactly [bob] and user-left is broadcast to
the remaining members. -/
theorem disconnect_nonlast_removes_only_witness :
    findRoom (disconnect ⟨[⟨("r1"), [("alice"), ("bob")], 0⟩], [], 0⟩
        ⟨some ("r1"), some ("alice")⟩ false).store ("r1") =
      some ⟨("r1"), [("bob")], 0⟩ ∧
    ("alice") ∉ [("bob")] ∧
    (∀ v ∈ [("alice"), ("bob")], ¬ v = ("alice") → v ∈ [("bob")]) ∧
    (∀ v ∈ [("bob")], v ∈ [("alice"), ("bob")] ∧ ¬ v = ("alice")) ∧
    (disconnect ⟨[⟨("r1"), [("alice"), ("bob")], 0⟩], [], 0⟩
        ⟨some ("r1"), some ("alice")⟩ false).emits =
      [(Target.roomExceptCaller ("r1"), OutEvent.userLeft ("alice") [("bob")])] :=
  disconnect_nonlast_removes_only ⟨[⟨("r1"), [("alice"), ("bob")], 0⟩], [], 0⟩
    ("r1") ("alice") ⟨("r1"), [("alice"), ("bob")], 0⟩ [("bob")]
    (by decide) (by decide) (by decide) (by decide) (by decide)

/-- C10: clear-room-chat never modifies any Room record, whether the store
operation succeeds or fails. -/
theorem clearRoomChat_rooms_unchanged (store : Store) (socket : SocketState) (rid : String)
    (fail : Bool) :
    (clearRoomChat store socket rid fail).store.rooms = store.rooms := by
  cases fail <;> rfl

/-! ### The join-reply message list (C1) -/

/-- The i-th message of the C1 scenario: id and timestamp both i, in room
r. -/
def c1Msg (i : Nat) : Message := ⟨i, ("r"), ("alice"), ("hi"), i⟩

/-- The C1 scenario store: room r with participant alice and 51 messages
with timestamps 0 to 50. -/
def c1Store : Store := ⟨[⟨("r"), [("alice")], 0⟩], (List.range 51).map c1Msg, 51⟩

/-- Modelled from the spec: the join-reply message computation the spec
describes — sort the room messages by timestamp descending, limit to 50,
then re-sort the retained 50 ascending, yielding the 50 most recent
messages in chronological order. Compared against recentMessages, the
computation the code performs. -/
def specJoinMessages (msgs : List Message) (rid : String) : List Message :=
  List.insertionSort tsle
    ((List.insertionSort tsge (msgs.filter (fun m => m.roomId = rid))).take 50)

/-- C1: refuted on the code as written. In a room holding 51 messages with
timestamps 0 to 50, the room-joined reply contains the 50 oldest messages
(timestamps 0 to 49) in ascending order, not the 50 most recent (timestamps
1 to 50) that the spec computation yields: the two chained sort calls merge
into a single ascending sort applied before the limit, rather than acting
as a two-pass sort. -/
theorem joinRoom_reply_oldest_not_recent :
    (joinRoom c1Store {} ("r") ("alice") 100 false).emits =
      [(Target.caller,
        OutEvent.roomJoined ("r") [("alice")] ((List.range 50).map c1Msg)),
       (Target.roomExceptCaller ("r"), OutEvent.userJoined ("alice") [("alice")])] ∧
    specJoinMessages c1Store.messages ("r") =
      (List.range 50).map (fun i => c1Msg (i + 1)) ∧
    (List.range 50).map c1Msg ≠ (List.range 50).map (fun i => c1Msg (i + 1)) :=
  ⟨by decide, by decide, by decide⟩

end ChatServer
